import Mathlib

/-!
Verification development for the HCS VRAM interceptor library
(src/pkg/interceptor/libhcs_interceptor.c).

The library interposes GPU memory allocation APIs of three vendor runtimes
(CUDA, ACL, HIP) and enforces a per-process device-memory quota.  The model
below is a shallow embedding of the quota engine:

* machine integers of type size_t are modelled as Nat together with an
  explicit reduction modulo 2^64 exactly where the C code can overflow
  (the admission sum and the commit of quota_used); the uint64 statistics
  counters only ever advance by one per intercepted call, so they are
  modelled as unbounded naturals;
* the fixed array of MAX_ALLOCATIONS tracking slots, of which the first
  allocation_count are in use, is modelled as the list of those first
  allocation_count slots, with the capacity bound enforced on append;
* the real vendor functions are external: each hook takes the return code
  and the written handle of the hypothetical real call as parameters, and
  reports in its outcome whether the real function was invoked;
* the one-shot initialization latch, the mutex and the logging calls have
  no effect on the quota state in a single-threaded run and are not
  modelled; the claims treated here are all single-threaded.

Pointers are modelled as natural numbers, 0 being the null pointer.
-/

namespace HCS

/-- The modulus of the 64-bit size_t type. -/
def SIZE_T_MOD : Nat := 2 ^ 64

/-- MAX_ALLOCATIONS from the source: capacity of the tracking table. -/
def MAX_ALLOCATIONS : Nat := 65536

/-- Per-vendor return codes: the success code, the out-of-memory code
returned on admission denial, and the invalid-argument code returned when
the real function cannot be resolved. -/
structure VendorCodes where
  success : Nat
  oom : Nat
  invalid : Nat
deriving DecidableEq, Repr

/-- CUDA: cudaSuccess = 0, cudaErrorMemoryAllocation = 2,
cudaErrorInvalidValue = 1. -/
def cudaCodes : VendorCodes := ⟨0, 2, 1⟩

/-- ACL: ACL_SUCCESS = 0, ACL_ERROR_RT_MEMORY_ALLOCATION = 107000,
ACL_ERROR_INVALID_PARAM = 107001. -/
def aclCodes : VendorCodes := ⟨0, 107000, 107001⟩

/-- HIP: hipSuccess = 0, hipErrorOutOfMemory = 2,
hipErrorInvalidValue = 1. -/
def hipCodes : VendorCodes := ⟨0, 2, 1⟩

/-- allocation_entry_t: one tracking slot of the allocation table. -/
structure allocation_entry_t where
  ptr : Nat
  size : Nat
  in_use : Bool
deriving DecidableEq, Repr

/-- quota_context_t: the process-wide quota state (g_ctx), without the
mutex, log level and init latch, which do not influence the quota
bookkeeping of a single-threaded run.  The allocations list holds the
first allocation_count slots of the fixed array. -/
structure quota_context_t where
  quota_limit : Nat
  quota_used : Nat
  allocations : List allocation_entry_t
  peak_usage : Nat
  total_allocs : Nat
  total_frees : Nat
  failed_allocs : Nat
deriving DecidableEq, Repr

/-- The initial g_ctx after hcs_init has set quota_limit: everything else
starts at zero and the table is empty. -/
def init_ctx (limit : Nat) : quota_context_t :=
  ⟨limit, 0, [], 0, 0, 0, 0⟩

/-- The test of find_allocation: whether some slot is live with this
pointer (find_allocation returns a nonnegative index exactly when a slot
with in_use and the same ptr exists; the search takes the first one). -/
def isTracked : List allocation_entry_t → Nat → Bool
  | [], _ => false
  | e :: rest, p => (e.in_use && e.ptr == p) || isTracked rest p

/-- First phase of add_allocation: scan for a slot that is not in use and
reuse it.  Returns none when every slot is live. -/
def fillSlot : List allocation_entry_t → Nat → Nat → Option (List allocation_entry_t)
  | [], _, _ => none
  | e :: rest, p, s =>
    if e.in_use then (fillSlot rest p s).map (fun l => e :: l)
    else some (⟨p, s, true⟩ :: rest)

/-- add_allocation: reuse the first dead slot, otherwise append while the
table is below MAX_ALLOCATIONS; returns none when the table is full. -/
def add_allocation (l : List allocation_entry_t) (p s : Nat) :
    Option (List allocation_entry_t) :=
  match fillSlot l p s with
  | some l2 => some l2
  | none =>
    if l.length < MAX_ALLOCATIONS then some (l ++ [⟨p, s, true⟩]) else none

/-- remove_allocation: find the first live slot holding this pointer,
mark it dead and return its recorded size; return 0 and leave the table
unchanged when no live slot matches (fuses find_allocation with the
mark-dead step of the source). -/
def remove_allocation : List allocation_entry_t → Nat → Nat × List allocation_entry_t
  | [], _ => (0, [])
  | e :: rest, p =>
    if e.in_use && e.ptr == p then (e.size, ⟨e.ptr, e.size, false⟩ :: rest)
    else ((remove_allocation rest p).1, e :: (remove_allocation rest p).2)

/-- Byte sum of the live entries of the table. -/
def liveSum (l : List allocation_entry_t) : Nat :=
  (l.map (fun e => if e.in_use then e.size else 0)).sum

/-- Outcome of an intercepted allocate or free call: the vendor return
code handed back to the application, the quota state afterwards, and
whether the real vendor function was invoked. -/
structure MallocOutcome where
  code : Nat
  ctx : quota_context_t
  invoked : Bool
deriving DecidableEq, Repr

/-- The shared allocate protocol each vendor hook instantiates
(cudaMalloc, cudaMallocManaged, aclrtMalloc, hipMalloc are textually
identical in the source apart from the vendor codes and extra pass-through
parameters).  resolved says whether the real function reference is
available after the call-time dlsym retry; realCode and realPtr are the
return code of the hypothetical real call and the handle it writes
(0 = null); devPtrNull says whether the caller passed a null output
pointer.  The admission sum and the quota_used commit are size_t
arithmetic, hence the mod 2^64. -/
def hcs_malloc (c : VendorCodes) (resolved : Bool) (realCode realPtr : Nat)
    (devPtrNull : Bool) (ctx : quota_context_t) (size : Nat) : MallocOutcome :=
  if resolved then
    if ctx.quota_limit < (ctx.quota_used + size) % SIZE_T_MOD then
      ⟨c.oom, { ctx with failed_allocs := ctx.failed_allocs + 1 }, false⟩
    else if realCode = c.success ∧ devPtrNull = false ∧ realPtr ≠ 0 then
      ⟨realCode,
        { ctx with
          quota_used := (ctx.quota_used + size) % SIZE_T_MOD,
          total_allocs := ctx.total_allocs + 1,
          peak_usage :=
            if ctx.peak_usage < (ctx.quota_used + size) % SIZE_T_MOD then
              (ctx.quota_used + size) % SIZE_T_MOD
            else ctx.peak_usage,
          allocations := (add_allocation ctx.allocations realPtr size).getD ctx.allocations },
        true⟩
    else ⟨realCode, ctx, true⟩
  else ⟨c.invalid, ctx, false⟩

/-- The shared free protocol (cudaFree, aclrtFree, hipFree).  realFreeCode
is what the real free returns; its result is handed back verbatim whenever
it is invoked. -/
def hcs_free (c : VendorCodes) (resolved : Bool) (realFreeCode : Nat)
    (ctx : quota_context_t) (p : Nat) : MallocOutcome :=
  if resolved then
    if p = 0 then ⟨realFreeCode, ctx, true⟩
    else
      if 0 < (remove_allocation ctx.allocations p).1 then
        ⟨realFreeCode,
          { ctx with
            quota_used :=
              if (remove_allocation ctx.allocations p).1 ≤ ctx.quota_used then
                ctx.quota_used - (remove_allocation ctx.allocations p).1
              else 0,
            total_frees := ctx.total_frees + 1,
            allocations := (remove_allocation ctx.allocations p).2 },
          true⟩
      else ⟨realFreeCode, { ctx with allocations := (remove_allocation ctx.allocations p).2 }, true⟩
  else ⟨c.invalid, ctx, false⟩

/-- Outcome of an intercepted memory-info query: return code, the values
left in the two output words, the (unchanged) quota state, and whether the
real query was invoked. -/
structure MemInfoOutcome where
  code : Nat
  freeOut : Nat
  totalOut : Nat
  ctx : quota_context_t
  invoked : Bool
deriving DecidableEq, Repr

/-- The shared memory-info protocol (cudaMemGetInfo, aclrtGetMemInfo,
hipMemGetInfo).  inFree and inTotal are the contents of the output words
before the call; realCode, realFree and realTotal are the return code of
the real query and the contents it leaves in the output words. -/
def hcs_memGetInfo (c : VendorCodes) (resolved : Bool)
    (inFree inTotal realCode realFree realTotal : Nat)
    (ctx : quota_context_t) : MemInfoOutcome :=
  if resolved then
    if realCode ≠ c.success then ⟨realCode, realFree, realTotal, ctx, true⟩
    else
      ⟨c.success,
        if ctx.quota_used < ctx.quota_limit then ctx.quota_limit - ctx.quota_used else 0,
        ctx.quota_limit, ctx, true⟩
  else ⟨c.invalid, inFree, inTotal, ctx, false⟩

/-! ### Configuration parsing

parse_size_string calls the C library strtod on the configuration string
and multiplies the parsed value by a unit suffix.  The model covers every
input form of C11 strtod: the decimal form, the hexadecimal form (0x or
0X, hex digits with an optional period, optional binary exponent), and
the infinity and nan forms, all case-insensitive with an optional sign.
A recognized finite magnitude is kept exactly as a fraction num / den
(den a power of ten or of two), and the final size_t conversion takes the
exact truncation toward zero.  The conversion is undefined in C for
infinity, nan and any value outside (-1, 2^64); the model returns none
for exactly those inputs, so no theorem can assert a value where the
program has none.  On the defined domain the model is exact wherever the
double computation is exact; every value the specification exercises
(integers below 2^53 and halves of such integers) is exact, and no
theorem quantifies over the region where double rounding could differ
from the exact fraction. -/

/-- The characters the C isspace accepts in the default locale. -/
def isSpaceChar (c : Char) : Bool :=
  c = ' ' || c = '\t' || c = '\n' || c = '\x0b' || c = '\x0c' || c = '\r'

/-- Read a maximal run of decimal digits, returning the accumulated value,
the number of digits read, and the rest of the input. -/
def readDigits : List Char → Nat → Nat → Nat × Nat × List Char
  | [], acc, n => (acc, n, [])
  | c :: cs, acc, n =>
    if c.isDigit then readDigits cs (acc * 10 + (c.toNat - 48)) (n + 1)
    else (acc, n, c :: cs)

/-- Hexadecimal digit test, as the C isxdigit. -/
def isHexDigitChar (c : Char) : Bool :=
  c.isDigit || ('a' ≤ c && c ≤ 'f') || ('A' ≤ c && c ≤ 'F')

/-- Value of a hexadecimal digit character. -/
def hexDigitVal (c : Char) : Nat :=
  if c.isDigit then c.toNat - 48
  else if 'a' ≤ c && c ≤ 'f' then c.toNat - 87
  else c.toNat - 55

/-- Read a maximal run of hexadecimal digits, returning the accumulated
value, the number of digits read, and the rest of the input. -/
def readHexDigits : List Char → Nat → Nat → Nat × Nat × List Char
  | [], acc, n => (acc, n, [])
  | c :: cs, acc, n =>
    if isHexDigitChar c then readHexDigits cs (acc * 16 + hexDigitVal c) (n + 1)
    else (acc, n, c :: cs)

/-- Read an optional decimal exponent part (e or E, optional sign, at
least one digit); consumes nothing when the exponent part is malformed,
as strtod does. -/
def readExp (cs : List Char) : Int × List Char :=
  match cs with
  | c :: rest =>
    if c = 'e' || c = 'E' then
      match rest with
      | s :: rest2 =>
        if s = '+' then
          let r := readDigits rest2 0 0
          if r.2.1 = 0 then (0, cs) else ((r.1 : Int), r.2.2)
        else if s = '-' then
          let r := readDigits rest2 0 0
          if r.2.1 = 0 then (0, cs) else (-(r.1 : Int), r.2.2)
        else
          let r := readDigits rest 0 0
          if r.2.1 = 0 then (0, cs) else ((r.1 : Int), r.2.2)
      | [] => (0, cs)
    else (0, cs)
  | [] => (0, cs)

/-- Read an optional binary exponent part of a hexadecimal number (p or
P, optional sign, at least one decimal digit); consumes nothing when
malformed. -/
def readPExp (cs : List Char) : Int × List Char :=
  match cs with
  | c :: rest =>
    if c = 'p' || c = 'P' then
      match rest with
      | s :: rest2 =>
        if s = '+' then
          let r := readDigits rest2 0 0
          if r.2.1 = 0 then (0, cs) else ((r.1 : Int), r.2.2)
        else if s = '-' then
          let r := readDigits rest2 0 0
          if r.2.1 = 0 then (0, cs) else (-(r.1 : Int), r.2.2)
        else
          let r := readDigits rest 0 0
          if r.2.1 = 0 then (0, cs) else ((r.1 : Int), r.2.2)
      | [] => (0, cs)
    else (0, cs)
  | [] => (0, cs)

/-- A value recognized by strtod: a finite sign and exact magnitude
num / den, an infinity, or a nan. -/
inductive StrtodNum where
  | finite (neg : Bool) (num den : Nat)
  | inf (neg : Bool)
  | nan
deriving DecidableEq, Repr

/-- The optional parenthesized character sequence after a nan form:
consumed only when a whole well-formed group is present, as strtod
does. -/
def nanRest (cs : List Char) : List Char :=
  match cs with
  | '(' :: r =>
    let body := r.takeWhile (fun c => c.isAlphanum || c = '_')
    match r.drop body.length with
    | ')' :: r3 => r3
    | _ => cs
  | _ => cs

/-- The decimal form of strtod: digits with an optional fraction part and
an optional decimal exponent; none when no digit occurs in the
mantissa. -/
def strtodDecimal (neg : Bool) (cs : List Char) : Option (StrtodNum × List Char) :=
  let ri := readDigits cs 0 0
  let fr :=
    match ri.2.2 with
    | '.' :: r =>
      let rf := readDigits r 0 0
      (ri.1 * 10 ^ rf.2.1 + rf.1, rf.2.1, rf.2.2)
    | _ => (ri.1, 0, ri.2.2)
  if ri.2.1 = 0 ∧ fr.2.1 = 0 then none
  else
    let re := readExp fr.2.2
    if 0 ≤ re.1 then
      some (StrtodNum.finite neg (fr.1 * 10 ^ re.1.toNat) (10 ^ fr.2.1), re.2)
    else
      some (StrtodNum.finite neg fr.1 (10 ^ fr.2.1 * 10 ^ (-re.1).toNat), re.2)

/-- The hexadecimal form of strtod, applied to the input after the 0x
prefix: hex digits with an optional fraction part and an optional binary
exponent; none when no hex digit occurs in the mantissa (then the subject
sequence of the whole input is the bare 0 before the x). -/
def strtodHex (neg : Bool) (cs : List Char) : Option (StrtodNum × List Char) :=
  let ri := readHexDigits cs 0 0
  let fr :=
    match ri.2.2 with
    | '.' :: r =>
      let rf := readHexDigits r 0 0
      (ri.1 * 16 ^ rf.2.1 + rf.1, rf.2.1, rf.2.2)
    | _ => (ri.1, 0, ri.2.2)
  if ri.2.1 = 0 ∧ fr.2.1 = 0 then none
  else
    let re := readPExp fr.2.2
    if 0 ≤ re.1 then
      some (StrtodNum.finite neg (fr.1 * 2 ^ re.1.toNat) (16 ^ fr.2.1), re.2)
    else
      some (StrtodNum.finite neg fr.1 (16 ^ fr.2.1 * 2 ^ (-re.1).toNat), re.2)

/-- Case-insensitive comparison of the head of the input against a
lowercase pattern, as strncasecmp with the pattern length does; an ASCII
uppercase letter matches its lowercase form. -/
def matchCI : List Char → List Char → Bool
  | _, [] => true
  | [], _ :: _ => false
  | c :: cs, p :: ps => (c = p || c.toNat + 32 = p.toNat) && matchCI cs ps

/-- Modelled from the C library strtod: skip whitespace and an optional
sign, then recognize an infinity form, a nan form (with its optional
parenthesized sequence), a hexadecimal number after a 0x or 0X prefix
(falling back to the bare 0 when no hex digit follows the prefix), or a
decimal number.  Returns none exactly when no conversion is performed
(endptr = str). -/
def strtod (cs : List Char) : Option (StrtodNum × List Char) :=
  let cs1 := cs.dropWhile isSpaceChar
  let signed :=
    match cs1 with
    | '-' :: r => (true, r)
    | '+' :: r => (false, r)
    | _ => (false, cs1)
  let neg := signed.1
  let cs2 := signed.2
  if matchCI cs2 ['i', 'n', 'f', 'i', 'n', 'i', 't', 'y'] then
    some (StrtodNum.inf neg, cs2.drop 8)
  else if matchCI cs2 ['i', 'n', 'f'] then
    some (StrtodNum.inf neg, cs2.drop 3)
  else if matchCI cs2 ['n', 'a', 'n'] then
    some (StrtodNum.nan, nanRest (cs2.drop 3))
  else
    match cs2 with
    | '0' :: x :: r =>
      if x = 'x' || x = 'X' then
        match strtodHex neg r with
        | some v => some v
        | none => some (StrtodNum.finite neg 0 1, x :: r)
      else strtodDecimal neg cs2
    | _ => strtodDecimal neg cs2

/-- The unit suffix multiplier chain of parse_size_string, checked in
source order (Gi/GiB before G/GB, and so on); an unrecognized suffix
means plain bytes. -/
def suffix_multiplier (cs : List Char) : Nat :=
  if matchCI cs ['g', 'i'] || matchCI cs ['g', 'i', 'b'] then 1024 * 1024 * 1024
  else if matchCI cs ['g'] || matchCI cs ['g', 'b'] then 1000 * 1000 * 1000
  else if matchCI cs ['m', 'i'] || matchCI cs ['m', 'i', 'b'] then 1024 * 1024
  else if matchCI cs ['m'] || matchCI cs ['m', 'b'] then 1000 * 1000
  else if matchCI cs ['k', 'i'] || matchCI cs ['k', 'i', 'b'] then 1024
  else if matchCI cs ['k'] || matchCI cs ['k', 'b'] then 1000
  else 1

/-- The size_t conversion of the parsed value multiplied by the unit
suffix: truncation toward zero where the C standard defines the
conversion (a value in the open interval (-1, 2^64)), and none where it
is undefined (infinity, nan, a magnitude reaching 2^64, or a value at or
below -1). -/
def size_t_of_value (v : StrtodNum) (mult : Nat) : Option Nat :=
  match v with
  | StrtodNum.finite neg num den =>
    if neg then
      if num * mult < den then some 0 else none
    else
      if num * mult / den < SIZE_T_MOD then some (num * mult / den) else none
  | StrtodNum.inf _ => none
  | StrtodNum.nan => none

/-- parse_size_string: empty input gives 0; otherwise parse a number with
strtod (no conversion gives 0), skip spaces, read the unit suffix and
convert the product to size_t; none marks the inputs on which the C
conversion is undefined. -/
def parse_size_string (s : String) : Option Nat :=
  if s.isEmpty then some 0
  else
    match strtod s.data with
    | none => some 0
    | some (v, rest) =>
      let rest2 := rest.dropWhile (fun c => c = ' ')
      size_t_of_value v (suffix_multiplier rest2)

/-- One intercepted call: an allocate whose real call succeeds writing the
given handle, or a free of a handle. -/
inductive GpuOp where
  | alloc (size : Nat) (realPtr : Nat)
  | free (p : Nat)
deriving DecidableEq, Repr

/-- Run one intercepted call with resolved bindings and a succeeding real
function. -/
def runOp (ctx : quota_context_t) : GpuOp → quota_context_t
  | GpuOp.alloc size p => (hcs_malloc cudaCodes true cudaCodes.success p false ctx size).ctx
  | GpuOp.free p => (hcs_free cudaCodes true cudaCodes.success ctx p).ctx

/-- Run a sequence of intercepted calls. -/
def runOps : quota_context_t → List GpuOp → quota_context_t
  | ctx, [] => ctx
  | ctx, op :: ops => runOps (runOp ctx op) ops

/-- Whether a call passes the admission check in the given state (frees
always do). -/
def admittedOp (ctx : quota_context_t) : GpuOp → Bool
  | GpuOp.alloc size _ => !decide (ctx.quota_limit < (ctx.quota_used + size) % SIZE_T_MOD)
  | GpuOp.free _ => true

/-- Whether every call of the sequence passes the admission check in the
state it runs in. -/
def admittedRun : quota_context_t → List GpuOp → Bool
  | _, [] => true
  | ctx, op :: ops => admittedOp ctx op && admittedRun (runOp ctx op) ops

/-- Whether the tracking table can accept one more entry: a dead slot to
reuse, or room to append. -/
def hasRoom (l : List allocation_entry_t) : Bool :=
  decide (l.length < MAX_ALLOCATIONS) || l.any (fun e => !e.in_use)

/-- The sound regime of one call: admitted, and for an allocate neither a
size_t overflow of the admission sum nor a full tracking table. -/
def goodOp (ctx : quota_context_t) : GpuOp → Bool
  | GpuOp.alloc size p =>
    admittedOp ctx (GpuOp.alloc size p)
      && decide (ctx.quota_used + size < SIZE_T_MOD)
      && hasRoom ctx.allocations
  | GpuOp.free _ => true

/-- The sound regime of a whole sequence. -/
def goodRun : quota_context_t → List GpuOp → Bool
  | _, [] => true
  | ctx, op :: ops => goodOp ctx op && goodRun (runOp ctx op) ops

/-- cudaMalloc hook. -/
def cudaMalloc (resolved : Bool) (realCode realPtr : Nat) (devPtrNull : Bool)
    (ctx : quota_context_t) (size : Nat) : MallocOutcome :=
  hcs_malloc cudaCodes resolved realCode realPtr devPtrNull ctx size

/-- cudaMallocManaged hook: same protocol; the flags argument is threaded
to the real call only and does not influence the quota state. -/
def cudaMallocManaged (resolved : Bool) (realCode realPtr : Nat) (devPtrNull : Bool)
    (ctx : quota_context_t) (size : Nat) (_flags : Nat) : MallocOutcome :=
  hcs_malloc cudaCodes resolved realCode realPtr devPtrNull ctx size

/-- aclrtMalloc hook: the policy argument is threaded to the real call
only. -/
def aclrtMalloc (resolved : Bool) (realCode realPtr : Nat) (devPtrNull : Bool)
    (ctx : quota_context_t) (size : Nat) (_policy : Nat) : MallocOutcome :=
  hcs_malloc aclCodes resolved realCode realPtr devPtrNull ctx size

/-- hipMalloc hook. -/
def hipMalloc (resolved : Bool) (realCode realPtr : Nat) (devPtrNull : Bool)
    (ctx : quota_context_t) (size : Nat) : MallocOutcome :=
  hcs_malloc hipCodes resolved realCode realPtr devPtrNull ctx size

/-- cudaFree hook. -/
def cudaFree (resolved : Bool) (realFreeCode : Nat) (ctx : quota_context_t)
    (p : Nat) : MallocOutcome :=
  hcs_free cudaCodes resolved realFreeCode ctx p

/-- aclrtFree hook. -/
def aclrtFree (resolved : Bool) (realFreeCode : Nat) (ctx : quota_context_t)
    (p : Nat) : MallocOutcome :=
  hcs_free aclCodes resolved realFreeCode ctx p

/-- hipFree hook. -/
def hipFree (resolved : Bool) (realFreeCode : Nat) (ctx : quota_context_t)
    (p : Nat) : MallocOutcome :=
  hcs_free hipCodes resolved realFreeCode ctx p

/-- cudaMemGetInfo hook. -/
def cudaMemGetInfo (resolved : Bool) (inFree inTotal realCode realFree realTotal : Nat)
    (ctx : quota_context_t) : MemInfoOutcome :=
  hcs_memGetInfo cudaCodes resolved inFree inTotal realCode realFree realTotal ctx

/-- aclrtGetMemInfo hook: the memory-attribute argument is threaded to the
real call only. -/
def aclrtGetMemInfo (resolved : Bool) (inFree inTotal realCode realFree realTotal : Nat)
    (ctx : quota_context_t) (_attr : Nat) : MemInfoOutcome :=
  hcs_memGetInfo aclCodes resolved inFree inTotal realCode realFree realTotal ctx

/-- hipMemGetInfo hook. -/
def hipMemGetInfo (resolved : Bool) (inFree inTotal realCode realFree realTotal : Nat)
    (ctx : quota_context_t) : MemInfoOutcome :=
  hcs_memGetInfo hipCodes resolved inFree inTotal realCode realFree realTotal ctx

/-- State with the size_t sum of used and requested wrapping: used to
refute the mathematical reading of the admission check. -/
def overflow_ctx : quota_context_t := ⟨2 ^ 32, 2 ^ 32, [], 2 ^ 32, 1, 0, 0⟩

/-- A request so large that adding it to overflow_ctx.quota_used wraps
the 64-bit sum to 0. -/
def overflow_size : Nat := 2 ^ 64 - 2 ^ 32

/-- An admitted two-allocation trace whose sizes sum to exactly 2^64. -/
def overflow_ops : List GpuOp :=
  [GpuOp.alloc (2 ^ 32) 1, GpuOp.alloc (2 ^ 64 - 2 ^ 32) 2]

/-- A tracking table with every one of the MAX_ALLOCATIONS slots live. -/
def full_table : List allocation_entry_t :=
  List.replicate MAX_ALLOCATIONS ⟨1, 0, true⟩

/-- A state whose tracking table is completely full. -/
def full_ctx : quota_context_t := ⟨1, 0, full_table, 0, 0, 0, 0⟩

/-- Spec-side predicate for the parsing claim: whether the string begins
with a decimal digit. -/
def leadingDigitSpec (s : String) : Bool :=
  match s.data with
  | [] => false
  | c :: _ => c.isDigit

/-! ## Helper lemmas about the allocation table -/

theorem liveSum_cons (e : allocation_entry_t) (l : List allocation_entry_t) :
    liveSum (e :: l) = (if e.in_use then e.size else 0) + liveSum l := by
  simp [liveSum]

theorem liveSum_append (l1 l2 : List allocation_entry_t) :
    liveSum (l1 ++ l2) = liveSum l1 + liveSum l2 := by
  simp [liveSum]

/-- remove_allocation never yields more than the live byte sum, and
subtracts exactly what it yields from the live byte sum. -/
theorem remove_allocation_liveSum (p : Nat) :
    ∀ l : List allocation_entry_t,
      (remove_allocation l p).1 ≤ liveSum l ∧
      liveSum (remove_allocation l p).2 = liveSum l - (remove_allocation l p).1 := by
  intro l
  induction l with
  | nil => simp [remove_allocation, liveSum]
  | cons e rest ih =>
    by_cases h : (e.in_use && e.ptr == p) = true
    · have hin : e.in_use = true := by
        revert h
        cases e.in_use <;> simp
      rw [remove_allocation, if_pos h]
      constructor
      · simp [liveSum_cons, hin]
      · simp [liveSum_cons, hin]
    · rw [remove_allocation, if_neg h]
      constructor
      · exact Nat.le_trans ih.1 (by simp [liveSum_cons])
      · simp only [liveSum_cons]
        rw [ih.2, Nat.add_sub_assoc ih.1]

/-- Removing an untracked pointer finds nothing and leaves the table as
it was. -/
theorem remove_allocation_untracked (p : Nat) :
    ∀ l : List allocation_entry_t, isTracked l p = false →
      remove_allocation l p = (0, l) := by
  intro l
  induction l with
  | nil => intro _; rfl
  | cons e rest ih =>
    intro h
    rw [isTracked, Bool.or_eq_false_iff] at h
    rw [remove_allocation, if_neg (by simp [h.1]), ih h.2]

/-- A pointer absent from every slot is not tracked. -/
theorem isTracked_eq_false (p : Nat) :
    ∀ l : List allocation_entry_t, (∀ e ∈ l, e.ptr ≠ p) →
      isTracked l p = false := by
  intro l
  induction l with
  | nil => intro _; rfl
  | cons e rest ih =>
    intro h
    rw [isTracked, Bool.or_eq_false_iff]
    refine ⟨?_, ih fun e he => h e (List.mem_cons_of_mem _ he)⟩
    have := h e (List.mem_cons_self _ _)
    simp [this]

/-- When every slot is live there is no slot to reuse. -/
theorem fillSlot_all_live (p s : Nat) :
    ∀ l : List allocation_entry_t, (∀ e ∈ l, e.in_use = true) →
      fillSlot l p s = none := by
  intro l
  induction l with
  | nil => intro _; rfl
  | cons e rest ih =>
    intro h
    rw [fillSlot, if_pos (h e (List.mem_cons_self _ _)),
      ih fun e he => h e (List.mem_cons_of_mem _ he)]
    rfl

/-- Conversely, a failed reuse scan means every slot was live. -/
theorem all_live_of_fillSlot_none (p s : Nat) :
    ∀ l : List allocation_entry_t, fillSlot l p s = none →
      ∀ e ∈ l, e.in_use = true := by
  intro l
  induction l with
  | nil => intro _ e he; cases he
  | cons e rest ih =>
    intro h f hf
    by_cases hin : e.in_use = true
    · rw [fillSlot, if_pos hin] at h
      rcases List.mem_cons.mp hf with rfl | hf2
      · exact hin
      · exact ih (Option.map_eq_none'.mp h) f hf2
    · rw [fillSlot, if_neg hin] at h
      cases h

/-- Reusing a dead slot adds exactly the inserted size to the live byte
sum. -/
theorem fillSlot_liveSum (p s : Nat) :
    ∀ l l2 : List allocation_entry_t, fillSlot l p s = some l2 →
      liveSum l2 = liveSum l + s := by
  intro l
  induction l with
  | nil => intro l2 h; cases h
  | cons e rest ih =>
    intro l2 h
    by_cases hin : e.in_use = true
    · rw [fillSlot, if_pos hin] at h
      rcases Option.map_eq_some'.mp h with ⟨lf, hlf, rfl⟩
      rw [liveSum_cons, liveSum_cons, ih lf hlf, Nat.add_assoc]
    · rw [fillSlot, if_neg hin] at h
      cases h
      have hdead : e.in_use = false := by
        revert hin
        cases e.in_use <;> simp
      rw [liveSum_cons, liveSum_cons, hdead]
      simp [Nat.add_comm]

/-- A table with room accepts the insertion, and the insertion adds
exactly the inserted size to the live byte sum. -/
theorem add_allocation_of_hasRoom (p s : Nat) (l : List allocation_entry_t)
    (h : hasRoom l = true) :
    ∃ l2, add_allocation l p s = some l2 ∧ liveSum l2 = liveSum l + s := by
  unfold add_allocation
  cases hfill : fillSlot l p s with
  | some lf => exact ⟨lf, rfl, fillSlot_liveSum p s l lf hfill⟩
  | none =>
    have hlen : l.length < MAX_ALLOCATIONS := by
      simp only [hasRoom, Bool.or_eq_true, decide_eq_true_eq] at h
      rcases h with h1 | h2
      · exact h1
      · exfalso
        rcases List.any_eq_true.mp h2 with ⟨e, he, hdead⟩
        have := all_live_of_fillSlot_none p s l hfill e he
        simp [this] at hdead
    refine ⟨l ++ [⟨p, s, true⟩], by rw [if_pos hlen], ?_⟩
    rw [liveSum_append, liveSum_cons]
    simp [liveSum]

/-- Removing from a table whose leading part does not track the pointer
skips that part. -/
theorem remove_allocation_append (p : Nat) (l2 : List allocation_entry_t) :
    ∀ l : List allocation_entry_t, isTracked l p = false →
      remove_allocation (l ++ l2) p =
        ((remove_allocation l2 p).1, l ++ (remove_allocation l2 p).2) := by
  intro l
  induction l with
  | nil => intro _; rfl
  | cons e rest ih =>
    intro h
    rw [isTracked, Bool.or_eq_false_iff] at h
    rw [List.cons_append, remove_allocation, if_neg (by simp [h.1]), ih h.2]
    rfl

/-- After a successful slot reuse of a previously untracked pointer, the
first removal of that pointer yields the inserted size. -/
theorem remove_fst_fillSlot (p s : Nat) :
    ∀ l l2 : List allocation_entry_t, isTracked l p = false →
      fillSlot l p s = some l2 → (remove_allocation l2 p).1 = s := by
  intro l
  induction l with
  | nil => intro l2 _ h; cases h
  | cons e rest ih =>
    intro l2 ht h
    rw [isTracked, Bool.or_eq_false_iff] at ht
    by_cases hin : e.in_use = true
    · rw [fillSlot, if_pos hin] at h
      rcases Option.map_eq_some'.mp h with ⟨lf, hlf, rfl⟩
      rw [remove_allocation, if_neg (by simp [ht.1])]
      exact ih lf ht.2 hlf
    · rw [fillSlot, if_neg hin] at h
      cases h
      simp [remove_allocation]

/-- After a successful insertion of a previously untracked pointer, the
first removal of that pointer yields the inserted size. -/
theorem remove_fst_add_allocation (p s : Nat) (l l2 : List allocation_entry_t)
    (ht : isTracked l p = false) (h : add_allocation l p s = some l2) :
    (remove_allocation l2 p).1 = s := by
  unfold add_allocation at h
  cases hfill : fillSlot l p s with
  | some lf =>
    rw [hfill] at h
    cases h
    exact remove_fst_fillSlot p s l _ ht hfill
  | none =>
    rw [hfill] at h
    by_cases hlen : l.length < MAX_ALLOCATIONS
    · rw [if_pos hlen] at h
      cases h
      rw [remove_allocation_append p _ l ht]
      simp [remove_allocation]
    · rw [if_neg hlen] at h
      cases h

/-! ## Helper lemmas about the shared protocols -/

/-- Denial branch of the allocate protocol. -/
theorem hcs_malloc_denied (c : VendorCodes) (realCode realPtr : Nat)
    (devPtrNull : Bool) (ctx : quota_context_t) (size : Nat)
    (h : ctx.quota_limit < (ctx.quota_used + size) % SIZE_T_MOD) :
    hcs_malloc c true realCode realPtr devPtrNull ctx size =
      ⟨c.oom, { ctx with failed_allocs := ctx.failed_allocs + 1 }, false⟩ := by
  unfold hcs_malloc
  rw [if_pos rfl, if_pos h]

/-- An admitted allocate always invokes the real allocator. -/
theorem hcs_malloc_admitted_invoked (c : VendorCodes) (realCode realPtr : Nat)
    (devPtrNull : Bool) (ctx : quota_context_t) (size : Nat)
    (h : ¬ ctx.quota_limit < (ctx.quota_used + size) % SIZE_T_MOD) :
    (hcs_malloc c true realCode realPtr devPtrNull ctx size).invoked = true := by
  unfold hcs_malloc
  rw [if_pos rfl, if_neg h]
  split <;> rfl

/-- Commit branch of the allocate protocol: admitted, real success, output
pointer present, non-null handle. -/
theorem hcs_malloc_commit (c : VendorCodes) (realPtr : Nat)
    (ctx : quota_context_t) (size : Nat)
    (h : ¬ ctx.quota_limit < (ctx.quota_used + size) % SIZE_T_MOD)
    (hp : realPtr ≠ 0) :
    hcs_malloc c true c.success realPtr false ctx size =
      ⟨c.success,
        { ctx with
          quota_used := (ctx.quota_used + size) % SIZE_T_MOD,
          total_allocs := ctx.total_allocs + 1,
          peak_usage :=
            if ctx.peak_usage < (ctx.quota_used + size) % SIZE_T_MOD then
              (ctx.quota_used + size) % SIZE_T_MOD
            else ctx.peak_usage,
          allocations := (add_allocation ctx.allocations realPtr size).getD ctx.allocations },
        true⟩ := by
  unfold hcs_malloc
  rw [if_pos rfl, if_neg h, if_pos ⟨rfl, rfl, hp⟩]

/-- Pass-through branch of the allocate protocol: admitted but nothing to
commit (real failure, missing output pointer, or null handle). -/
theorem hcs_malloc_nocommit (c : VendorCodes) (realCode realPtr : Nat)
    (devPtrNull : Bool) (ctx : quota_context_t) (size : Nat)
    (h : ¬ ctx.quota_limit < (ctx.quota_used + size) % SIZE_T_MOD)
    (h2 : ¬ (realCode = c.success ∧ devPtrNull = false ∧ realPtr ≠ 0)) :
    hcs_malloc c true realCode realPtr devPtrNull ctx size = ⟨realCode, ctx, true⟩ := by
  unfold hcs_malloc
  rw [if_pos rfl, if_neg h, if_neg h2]

/-- Freeing the null handle only forwards. -/
theorem hcs_free_null (c : VendorCodes) (realFreeCode : Nat)
    (ctx : quota_context_t) :
    hcs_free c true realFreeCode ctx 0 = ⟨realFreeCode, ctx, true⟩ := by
  unfold hcs_free
  rw [if_pos rfl, if_pos rfl]

/-- Freeing an untracked handle only forwards and changes nothing. -/
theorem hcs_free_untracked (c : VendorCodes) (realFreeCode : Nat)
    (ctx : quota_context_t) (p : Nat) (hp : p ≠ 0)
    (h : isTracked ctx.allocations p = false) :
    hcs_free c true realFreeCode ctx p = ⟨realFreeCode, ctx, true⟩ := by
  unfold hcs_free
  rw [if_pos rfl, if_neg hp, remove_allocation_untracked p ctx.allocations h]
  simp

/-- One good call preserves the conservation invariant: quota_used equals
the live byte sum of the table. -/
theorem conserved_runOp (ctx : quota_context_t) (op : GpuOp)
    (h : ctx.quota_used = liveSum ctx.allocations)
    (hg : goodOp ctx op = true) :
    (runOp ctx op).quota_used = liveSum (runOp ctx op).allocations := by
  cases op with
  | alloc size p =>
    simp only [goodOp, admittedOp, Bool.and_eq_true, Bool.not_eq_true',
      decide_eq_false_iff_not, decide_eq_true_eq] at hg
    obtain ⟨⟨hadm, hnw⟩, hroom⟩ := hg
    by_cases hp : p = 0
    · subst hp
      rw [runOp, hcs_malloc_nocommit cudaCodes cudaCodes.success 0 false ctx size hadm
        (by intro hc; exact hc.2.2 rfl)]
      exact h
    · rcases add_allocation_of_hasRoom p size ctx.allocations hroom with ⟨l2, hl2, hsum⟩
      rw [runOp, hcs_malloc_commit cudaCodes p ctx size hadm hp]
      simp only [hl2, Option.getD_some]
      rw [Nat.mod_eq_of_lt hnw, hsum, h]
  | free p =>
    by_cases hp : p = 0
    · subst hp
      rw [runOp, hcs_free_null]
      exact h
    · have hrem := remove_allocation_liveSum p ctx.allocations
      rw [runOp]
      unfold hcs_free
      rw [if_pos rfl, if_neg hp]
      by_cases hpos : 0 < (remove_allocation ctx.allocations p).1
      · rw [if_pos hpos]
        have hle : (remove_allocation ctx.allocations p).1 ≤ ctx.quota_used := by
          rw [h]; exact hrem.1
        simp only [if_pos hle]
        rw [hrem.2, h]
      · rw [if_neg hpos]
        have hz : (remove_allocation ctx.allocations p).1 = 0 := Nat.eq_zero_of_not_pos hpos
        simp only []
        rw [h, hrem.2, hz, Nat.sub_zero]

/-- A good run from a conserved state ends conserved. -/
theorem conserved_runOps (ops : List GpuOp) :
    ∀ ctx : quota_context_t, ctx.quota_used = liveSum ctx.allocations →
      goodRun ctx ops = true →
      (runOps ctx ops).quota_used = liveSum (runOps ctx ops).allocations := by
  induction ops with
  | nil => intro ctx h _; exact h
  | cons op ops ih =>
    intro ctx h hg
    rw [goodRun, Bool.and_eq_true] at hg
    exact ih (runOp ctx op) (conserved_runOp ctx op h hg.1) hg.2

/-- Goodness of a run restricts to goodness of each of its initial
segments. -/
theorem goodRun_of_append (pre suff : List GpuOp) :
    ∀ ctx : quota_context_t, goodRun ctx (pre ++ suff) = true →
      goodRun ctx pre = true := by
  induction pre with
  | nil => intro ctx _; rfl
  | cons op pre ih =>
    intro ctx h
    rw [List.cons_append, goodRun, Bool.and_eq_true] at h
    rw [goodRun, Bool.and_eq_true]
    exact ⟨h.1, ih (runOp ctx op) h.2⟩

/-! ## Zero-limit invariant -/

/-- Error branch of the memory-info protocol. -/
theorem hcs_memGetInfo_error (c : VendorCodes) (inFree inTotal realCode realFree realTotal : Nat)
    (ctx : quota_context_t) (h : realCode ≠ c.success) :
    hcs_memGetInfo c true inFree inTotal realCode realFree realTotal ctx =
      ⟨realCode, realFree, realTotal, ctx, true⟩ := by
  unfold hcs_memGetInfo
  rw [if_pos rfl, if_pos h]

/-- Virtualization branch of the memory-info protocol. -/
theorem hcs_memGetInfo_success (c : VendorCodes) (inFree inTotal realFree realTotal : Nat)
    (ctx : quota_context_t) :
    hcs_memGetInfo c true inFree inTotal c.success realFree realTotal ctx =
      ⟨c.success,
        if ctx.quota_used < ctx.quota_limit then ctx.quota_limit - ctx.quota_used else 0,
        ctx.quota_limit, ctx, true⟩ := by
  unfold hcs_memGetInfo
  rw [if_pos rfl, if_neg (by simp)]

/-! ## Claims -/

/-- C1, counterexample to the claim as stated: in a state with
used = 2^32 and limit = 2^32, a request of 2^64 - 2^32 bytes makes the
mathematical sum used + requested exceed the limit, so the claim demands
denial; but the size_t sum wraps to 0, the call is admitted, the real
allocator is invoked, no out-of-memory code is produced and failed_allocs
is not incremented. -/
theorem malloc_admission_mathsum_cex :
    overflow_ctx.quota_limit < overflow_ctx.quota_used + overflow_size ∧
    (cudaMalloc true 0 1 false overflow_ctx overflow_size).invoked = true ∧
    (cudaMalloc true 0 1 false overflow_ctx overflow_size).code ≠ cudaCodes.oom ∧
    (cudaMalloc true 0 1 false overflow_ctx overflow_size).ctx.failed_allocs =
      overflow_ctx.failed_allocs := by
  decide

/-- C1 (amended): for every allocate call (cudaMalloc, cudaMallocManaged,
aclrtMalloc, hipMalloc) with resolved binding, the request is denied if
and only if the size_t sum (used + requested) mod 2^64 exceeds limit at
check time; on denial the vendor out-of-memory-equivalent code is
returned, failed_allocs is incremented by one, used, peak, total_allocs
and the allocation table are unchanged, and the real vendor allocator is
never invoked; otherwise the real allocator is invoked. -/
theorem malloc_admission_denial_mod (ctx : quota_context_t)
    (size realCode realPtr flags policy : Nat) (devPtrNull : Bool) :
    (ctx.quota_limit < (ctx.quota_used + size) % SIZE_T_MOD →
      cudaMalloc true realCode realPtr devPtrNull ctx size =
        ⟨cudaCodes.oom, { ctx with failed_allocs := ctx.failed_allocs + 1 }, false⟩ ∧
      cudaMallocManaged true realCode realPtr devPtrNull ctx size flags =
        ⟨cudaCodes.oom, { ctx with failed_allocs := ctx.failed_allocs + 1 }, false⟩ ∧
      aclrtMalloc true realCode realPtr devPtrNull ctx size policy =
        ⟨aclCodes.oom, { ctx with failed_allocs := ctx.failed_allocs + 1 }, false⟩ ∧
      hipMalloc true realCode realPtr devPtrNull ctx size =
        ⟨hipCodes.oom, { ctx with failed_allocs := ctx.failed_allocs + 1 }, false⟩) ∧
    (¬ ctx.quota_limit < (ctx.quota_used + size) % SIZE_T_MOD →
      (cudaMalloc true realCode realPtr devPtrNull ctx size).invoked = true ∧
      (cudaMallocManaged true realCode realPtr devPtrNull ctx size flags).invoked = true ∧
      (aclrtMalloc true realCode realPtr devPtrNull ctx size policy).invoked = true ∧
      (hipMalloc true realCode realPtr devPtrNull ctx size).invoked = true) := by
  constructor
  · intro h
    exact ⟨hcs_malloc_denied cudaCodes realCode realPtr devPtrNull ctx size h,
      hcs_malloc_denied cudaCodes realCode realPtr devPtrNull ctx size h,
      hcs_malloc_denied aclCodes realCode realPtr devPtrNull ctx size h,
      hcs_malloc_denied hipCodes realCode realPtr devPtrNull ctx size h⟩
  · intro h
    exact ⟨hcs_malloc_admitted_invoked cudaCodes realCode realPtr devPtrNull ctx size h,
      hcs_malloc_admitted_invoked cudaCodes realCode realPtr devPtrNull ctx size h,
      hcs_malloc_admitted_invoked aclCodes realCode realPtr devPtrNull ctx size h,
      hcs_malloc_admitted_invoked hipCodes realCode realPtr devPtrNull ctx size h⟩

/-- Witness for C1 at a concrete denied request and a concrete admitted
request. -/
theorem malloc_admission_denial_mod_witness :
    ((init_ctx 100).quota_limit < ((init_ctx 100).quota_used + 200) % SIZE_T_MOD ∧
      cudaMalloc true 0 1 false (init_ctx 100) 200 =
        ⟨cudaCodes.oom,
          { init_ctx 100 with failed_allocs := (init_ctx 100).failed_allocs + 1 }, false⟩) ∧
    (¬ (init_ctx 100).quota_limit < ((init_ctx 100).quota_used + 50) % SIZE_T_MOD ∧
      (cudaMalloc true 0 1 false (init_ctx 100) 50).invoked = true) :=
  ⟨⟨by decide,
    ((malloc_admission_denial_mod (init_ctx 100) 200 0 1 0 0 false).1 (by decide)).1⟩,
   ⟨by decide,
    ((malloc_admission_denial_mod (init_ctx 100) 50 0 1 0 0 false).2 (by decide)).1⟩⟩

/-- C2, counterexample to the claim as stated: from the initial state with
limit 2^32, the two allocations of 2^32 and 2^64 - 2^32 bytes are both
admitted (the second because the size_t admission sum wraps to 0), the
fake real allocator succeeds with fresh handles, yet afterwards quota_used
is 0 while the live table entries sum to 2^64. -/
theorem conservation_overflow_cex :
    admittedRun (init_ctx (2 ^ 32)) overflow_ops = true ∧
    (runOps (init_ctx (2 ^ 32)) overflow_ops).quota_used ≠
      liveSum (runOps (init_ctx (2 ^ 32)) overflow_ops).allocations := by
  decide

/-- C2 (amended): for every single-threaded sequence of admitted allocate
and free calls from the initial state in which no allocate overflows the
size_t admission sum and the tracking table always has room, quota_used
equals the byte sum of the live allocation-table entries after each
call (that is, after every initial segment of the sequence). -/
theorem conservation_of_goodRun (limit : Nat) (pre suff : List GpuOp)
    (h : goodRun (init_ctx limit) (pre ++ suff) = true) :
    (runOps (init_ctx limit) pre).quota_used =
      liveSum (runOps (init_ctx limit) pre).allocations :=
  conserved_runOps pre (init_ctx limit) rfl
    (goodRun_of_append pre suff (init_ctx limit) h)

/-- Witness for C2 on a concrete admitted allocate-free trace. -/
theorem conservation_of_goodRun_witness :
    goodRun (init_ctx 100) ([GpuOp.alloc 10 1] ++ [GpuOp.free 1]) = true ∧
    (runOps (init_ctx 100) [GpuOp.alloc 10 1]).quota_used =
      liveSum (runOps (init_ctx 100) [GpuOp.alloc 10 1]).allocations :=
  ⟨by decide,
   conservation_of_goodRun 100 [GpuOp.alloc 10 1] [GpuOp.free 1] (by decide)⟩

/-- C4 (confirmed): for every memory-info query with resolved binding, a
real-query error is propagated unchanged with the output words left as
the real query wrote them, and on real-query success the vendor success
code is returned with total = limit and free = limit - used if
used < limit, else 0, regardless of the physical values. -/
theorem meminfo_virtualization (ctx : quota_context_t)
    (inFree inTotal realCode realFree realTotal attr : Nat) :
    (realCode ≠ 0 →
      cudaMemGetInfo true inFree inTotal realCode realFree realTotal ctx =
        ⟨realCode, realFree, realTotal, ctx, true⟩ ∧
      aclrtGetMemInfo true inFree inTotal realCode realFree realTotal ctx attr =
        ⟨realCode, realFree, realTotal, ctx, true⟩ ∧
      hipMemGetInfo true inFree inTotal realCode realFree realTotal ctx =
        ⟨realCode, realFree, realTotal, ctx, true⟩) ∧
    (realCode = 0 →
      cudaMemGetInfo true inFree inTotal realCode realFree realTotal ctx =
        ⟨0, if ctx.quota_used < ctx.quota_limit then ctx.quota_limit - ctx.quota_used else 0,
          ctx.quota_limit, ctx, true⟩ ∧
      aclrtGetMemInfo true inFree inTotal realCode realFree realTotal ctx attr =
        ⟨0, if ctx.quota_used < ctx.quota_limit then ctx.quota_limit - ctx.quota_used else 0,
          ctx.quota_limit, ctx, true⟩ ∧
      hipMemGetInfo true inFree inTotal realCode realFree realTotal ctx =
        ⟨0, if ctx.quota_used < ctx.quota_limit then ctx.quota_limit - ctx.quota_used else 0,
          ctx.quota_limit, ctx, true⟩) := by
  constructor
  · intro h
    exact ⟨hcs_memGetInfo_error cudaCodes inFree inTotal realCode realFree realTotal ctx h,
      hcs_memGetInfo_error aclCodes inFree inTotal realCode realFree realTotal ctx h,
      hcs_memGetInfo_error hipCodes inFree inTotal realCode realFree realTotal ctx h⟩
  · intro h
    subst h
    exact ⟨hcs_memGetInfo_success cudaCodes inFree inTotal realFree realTotal ctx,
      hcs_memGetInfo_success aclCodes inFree inTotal realFree realTotal ctx,
      hcs_memGetInfo_success hipCodes inFree inTotal realFree realTotal ctx⟩

/-- Witness for C4 at a concrete failing real query and a concrete
succeeding real query. -/
theorem meminfo_virtualization_witness :
    ((5 : Nat) ≠ 0 ∧
      cudaMemGetInfo true 1 2 5 33 44 ⟨10, 4, [], 4, 1, 0, 0⟩ =
        ⟨5, 33, 44, ⟨10, 4, [], 4, 1, 0, 0⟩, true⟩) ∧
    cudaMemGetInfo true 1 2 0 33 44 ⟨10, 4, [], 4, 1, 0, 0⟩ =
      ⟨0, 6, 10, ⟨10, 4, [], 4, 1, 0, 0⟩, true⟩ :=
  ⟨⟨by decide,
    ((meminfo_virtualization ⟨10, 4, [], 4, 1, 0, 0⟩ 1 2 5 33 44 9).1 (by decide)).1⟩,
   ((meminfo_virtualization ⟨10, 4, [], 4, 1, 0, 0⟩ 1 2 0 33 44 9).2 rfl).1⟩

/-- C5 (confirmed): for every free call with resolved binding whose handle
is null or not live in the allocation table, no quota state changes and
the call is forwarded to the real free, whose result is returned
verbatim. -/
theorem free_untracked_frame (realFreeCode : Nat) (ctx : quota_context_t) (p : Nat)
    (h : p = 0 ∨ isTracked ctx.allocations p = false) :
    cudaFree true realFreeCode ctx p = ⟨realFreeCode, ctx, true⟩ ∧
    aclrtFree true realFreeCode ctx p = ⟨realFreeCode, ctx, true⟩ ∧
    hipFree true realFreeCode ctx p = ⟨realFreeCode, ctx, true⟩ := by
  rcases h with h | h
  · subst h
    exact ⟨hcs_free_null cudaCodes realFreeCode ctx,
      hcs_free_null aclCodes realFreeCode ctx,
      hcs_free_null hipCodes realFreeCode ctx⟩
  · by_cases hp : p = 0
    · subst hp
      exact ⟨hcs_free_null cudaCodes realFreeCode ctx,
        hcs_free_null aclCodes realFreeCode ctx,
        hcs_free_null hipCodes realFreeCode ctx⟩
    · exact ⟨hcs_free_untracked cudaCodes realFreeCode ctx p hp h,
        hcs_free_untracked aclCodes realFreeCode ctx p hp h,
        hcs_free_untracked hipCodes realFreeCode ctx p hp h⟩

/-- Witness for C5 at the null handle and at a concrete untracked
handle. -/
theorem free_untracked_frame_witness :
    cudaFree true 0 (init_ctx 5) 0 = ⟨0, init_ctx 5, true⟩ ∧
    (isTracked (init_ctx 5).allocations 7 = false ∧
      cudaFree true 0 (init_ctx 5) 7 = ⟨0, init_ctx 5, true⟩) :=
  ⟨(free_untracked_frame 0 (init_ctx 5) 0 (Or.inl rfl)).1,
   ⟨by decide, (free_untracked_frame 0 (init_ctx 5) 7 (Or.inr (by decide))).1⟩⟩

/-- C7 (confirmed): an allocate that passes the admission check but whose
real vendor call fails returns the real failure code unchanged and leaves
the whole quota state exactly as before, for all four allocate hooks. -/
theorem vendor_failure_propagated (ctx : quota_context_t)
    (size realCode realPtr flags policy : Nat) (devPtrNull : Bool)
    (hadm : ¬ ctx.quota_limit < (ctx.quota_used + size) % SIZE_T_MOD)
    (hfail : realCode ≠ 0) :
    cudaMalloc true realCode realPtr devPtrNull ctx size = ⟨realCode, ctx, true⟩ ∧
    cudaMallocManaged true realCode realPtr devPtrNull ctx size flags =
      ⟨realCode, ctx, true⟩ ∧
    aclrtMalloc true realCode realPtr devPtrNull ctx size policy =
      ⟨realCode, ctx, true⟩ ∧
    hipMalloc true realCode realPtr devPtrNull ctx size = ⟨realCode, ctx, true⟩ := by
  refine ⟨?_, ?_, ?_, ?_⟩ <;>
    exact hcs_malloc_nocommit _ realCode realPtr devPtrNull ctx size hadm
      (fun hc => hfail hc.1)

/-- Witness for C7 at a concrete admitted request whose real call fails
with code 2. -/
theorem vendor_failure_propagated_witness :
    (¬ (init_ctx 100).quota_limit < ((init_ctx 100).quota_used + 10) % SIZE_T_MOD ∧
      (2 : Nat) ≠ 0) ∧
    cudaMalloc true 2 1 false (init_ctx 100) 10 = ⟨2, init_ctx 100, true⟩ :=
  ⟨⟨by decide, by decide⟩,
   (vendor_failure_propagated (init_ctx 100) 10 2 1 0 0 false (by decide) (by decide)).1⟩

/-- C8 (confirmed): every intercepted operation whose vendor binding is
unresolved even after the call-time retry returns that vendor
invalid-argument-equivalent code (1 for CUDA and HIP, 107001 for ACL),
leaves the quota state and the output words untouched and never invokes a
real function. -/
theorem unresolved_binding_invalid (ctx : quota_context_t)
    (size p inFree inTotal realCode realPtr realFree realTotal flags policy attr : Nat)
    (devPtrNull : Bool) :
    cudaMalloc false realCode realPtr devPtrNull ctx size = ⟨1, ctx, false⟩ ∧
    cudaMallocManaged false realCode realPtr devPtrNull ctx size flags = ⟨1, ctx, false⟩ ∧
    aclrtMalloc false realCode realPtr devPtrNull ctx size policy = ⟨107001, ctx, false⟩ ∧
    hipMalloc false realCode realPtr devPtrNull ctx size = ⟨1, ctx, false⟩ ∧
    cudaFree false realCode ctx p = ⟨1, ctx, false⟩ ∧
    aclrtFree false realCode ctx p = ⟨107001, ctx, false⟩ ∧
    hipFree false realCode ctx p = ⟨1, ctx, false⟩ ∧
    cudaMemGetInfo false inFree inTotal realCode realFree realTotal ctx =
      ⟨1, inFree, inTotal, ctx, false⟩ ∧
    aclrtGetMemInfo false inFree inTotal realCode realFree realTotal ctx attr =
      ⟨107001, inFree, inTotal, ctx, false⟩ ∧
    hipMemGetInfo false inFree inTotal realCode realFree realTotal ctx =
      ⟨1, inFree, inTotal, ctx, false⟩ :=
  ⟨rfl, rfl, rfl, rfl, rfl, rfl, rfl, rfl, rfl, rfl⟩

/-- C10 (confirmed): when the real allocator reports success but the
output pointer was null or the written handle is null, the success code is
returned and nothing is committed: the quota state is exactly as before,
for all four allocate hooks. -/
theorem null_handle_no_commit (ctx : quota_context_t)
    (size realPtr flags policy : Nat) (devPtrNull : Bool)
    (hadm : ¬ ctx.quota_limit < (ctx.quota_used + size) % SIZE_T_MOD)
    (hnull : devPtrNull = true ∨ realPtr = 0) :
    cudaMalloc true 0 realPtr devPtrNull ctx size = ⟨0, ctx, true⟩ ∧
    cudaMallocManaged true 0 realPtr devPtrNull ctx size flags = ⟨0, ctx, true⟩ ∧
    aclrtMalloc true 0 realPtr devPtrNull ctx size policy = ⟨0, ctx, true⟩ ∧
    hipMalloc true 0 realPtr devPtrNull ctx size = ⟨0, ctx, true⟩ := by
  refine ⟨?_, ?_, ?_, ?_⟩ <;>
    exact hcs_malloc_nocommit _ 0 realPtr devPtrNull ctx size hadm
      (fun hc => by
        rcases hnull with h | h
        · rw [h] at hc
          exact Bool.noConfusion hc.2.1
        · exact hc.2.2 h)

/-- Witness for C10 at a concrete admitted request whose real call
succeeds but writes a null handle. -/
theorem null_handle_no_commit_witness :
    (¬ (init_ctx 100).quota_limit < ((init_ctx 100).quota_used + 10) % SIZE_T_MOD ∧
      ((false : Bool) = true ∨ (0 : Nat) = 0)) ∧
    cudaMalloc true 0 0 false (init_ctx 100) 10 = ⟨0, init_ctx 100, true⟩ :=
  ⟨⟨by decide, Or.inr rfl⟩,
   (null_handle_no_commit (init_ctx 100) 10 0 0 0 false (by decide) (Or.inr rfl)).1⟩

/-- C9, counterexample to the claim as stated: the string .5Gi has no
leading numeric digit, so the claim demands result 0; but strtod parses
the fraction-led number 0.5, the Gi suffix applies, and the parser
returns 536870912. -/
theorem parse_size_leading_digit_cex :
    leadingDigitSpec (".5Gi") = false ∧
    parse_size_string (".5Gi") = some 536870912 ∧
    parse_size_string (".5Gi") ≠ some 0 := by
  decide

/-- C9 (amended): the size parser returns 17179869184 for 16Gi,
4000000000 for 4G, 1024 for 1024, and 0 for every string from which
strtod performs no conversion at all; a string may begin with a
non-digit (a decimal point, sign or whitespace) and still parse, and the
infinity, nan and hexadecimal forms also convert (the first two making
the subsequent size_t conversion undefined rather than 0), so they lie
outside the no-conversion case. -/
theorem parse_size_values :
    parse_size_string ("16Gi") = some 17179869184 ∧
    parse_size_string ("4G") = some 4000000000 ∧
    parse_size_string ("1024") = some 1024 ∧
    (∀ s : String, strtod s.data = none → parse_size_string s = some 0) := by
  refine ⟨by decide, by decide, by decide, ?_⟩
  intro s h
  unfold parse_size_string
  split
  · rfl
  · rw [h]

/-- Witness for C9 at the concrete digitless string abc. -/
theorem parse_size_values_witness :
    strtod (("abc" : String).data) = none ∧ parse_size_string ("abc") = some 0 :=
  ⟨by decide, parse_size_values.2.2.2 ("abc") (by decide)⟩

/-- quota_used after a non-null free with resolved binding. -/
theorem hcs_free_used (c : VendorCodes) (realFreeCode : Nat)
    (ctx : quota_context_t) (p : Nat) (hp : p ≠ 0) :
    (hcs_free c true realFreeCode ctx p).ctx.quota_used =
      if 0 < (remove_allocation ctx.allocations p).1 then
        if (remove_allocation ctx.allocations p).1 ≤ ctx.quota_used then
          ctx.quota_used - (remove_allocation ctx.allocations p).1
        else 0
      else ctx.quota_used := by
  unfold hcs_free
  rw [if_pos rfl, if_neg hp]
  split
  · rfl
  · rfl

/-- A full table (all slots live, none free) rejects every insertion. -/
theorem add_allocation_full (l : List allocation_entry_t) (p s : Nat)
    (hall : ∀ e ∈ l, e.in_use = true) (hlen : ¬ l.length < MAX_ALLOCATIONS) :
    add_allocation l p s = none := by
  unfold add_allocation
  rw [fillSlot_all_live p s l hall]
  exact if_neg hlen

/-- quota_used after the commit branch of the allocate protocol. -/
theorem malloc_commit_used (c : VendorCodes) (p : Nat) (ctx : quota_context_t)
    (size : Nat)
    (hnd : ¬ ctx.quota_limit < (ctx.quota_used + size) % SIZE_T_MOD) (hp : p ≠ 0) :
    (hcs_malloc c true c.success p false ctx size).ctx.quota_used =
      (ctx.quota_used + size) % SIZE_T_MOD := by
  rw [hcs_malloc_commit c p ctx size hnd hp]

/-- The table after the commit branch of the allocate protocol. -/
theorem malloc_commit_allocations (c : VendorCodes) (p : Nat)
    (ctx : quota_context_t) (size : Nat)
    (hnd : ¬ ctx.quota_limit < (ctx.quota_used + size) % SIZE_T_MOD) (hp : p ≠ 0) :
    (hcs_malloc c true c.success p false ctx size).ctx.allocations =
      (add_allocation ctx.allocations p size).getD ctx.allocations := by
  rw [hcs_malloc_commit c p ctx size hnd hp]

/-- Every slot of the full table is live. -/
theorem full_table_live : ∀ e ∈ full_table, e.in_use = true := by
  intro e he
  rw [full_table] at he
  rw [List.eq_of_mem_replicate he]

/-- The handle 2 is fresh for the full table (all its slots hold
handle 1). -/
theorem full_table_fresh : isTracked full_table 2 = false := by
  apply isTracked_eq_false
  intro e he
  rw [full_table] at he
  rw [List.eq_of_mem_replicate he]
  decide

/-- The full table is at capacity. -/
theorem full_table_len : ¬ full_table.length < MAX_ALLOCATIONS := by
  rw [full_table, List.length_replicate]
  exact Nat.lt_irrefl _

/-- Inserting handle 2 into the full state fails. -/
theorem full_ctx_add_none : add_allocation full_ctx.allocations 2 1 = none :=
  add_allocation_full full_table 2 1 full_table_live full_table_len

/-- The 1-byte request is admitted in the full state. -/
theorem full_ctx_admitted :
    ¬ full_ctx.quota_limit < (full_ctx.quota_used + 1) % SIZE_T_MOD := by
  decide

/-- The CUDA allocate hook on the full state, written via the shared
protocol. -/
theorem full_cex_mallocEq : cudaMalloc true 0 2 false full_ctx 1 =
    hcs_malloc cudaCodes true cudaCodes.success 2 false full_ctx 1 := rfl

/-- After the admitted 1-byte allocation, quota_used is 1. -/
theorem full_cex_used : (cudaMalloc true 0 2 false full_ctx 1).ctx.quota_used = 1 := by
  rw [full_cex_mallocEq, malloc_commit_used cudaCodes 2 full_ctx 1 full_ctx_admitted
    (by decide)]
  decide

/-- After the admitted 1-byte allocation, the table is unchanged because
the insertion failed. -/
theorem full_cex_allocations :
    (cudaMalloc true 0 2 false full_ctx 1).ctx.allocations = full_table := by
  rw [full_cex_mallocEq, malloc_commit_allocations cudaCodes 2 full_ctx 1
    full_ctx_admitted (by decide), full_ctx_add_none]
  exact rfl

/-- The CUDA free hook on the post-allocation state, written via the
shared protocol. -/
theorem full_cex_freeEq :
    cudaFree true 0 (cudaMalloc true 0 2 false full_ctx 1).ctx 2 =
      hcs_free cudaCodes true 0 (cudaMalloc true 0 2 false full_ctx 1).ctx 2 := rfl

/-- Freeing the (untracked) handle 2 after the allocation changes no
state. -/
theorem full_cex_free :
    hcs_free cudaCodes true 0 (cudaMalloc true 0 2 false full_ctx 1).ctx 2 =
      MallocOutcome.mk 0 (cudaMalloc true 0 2 false full_ctx 1).ctx true :=
  hcs_free_untracked cudaCodes 0 (cudaMalloc true 0 2 false full_ctx 1).ctx 2
    (by decide) (by rw [full_cex_allocations]; exact full_table_fresh)

/-- C6, counterexample to the claim as stated: in a state whose tracking
table is completely full (65536 live slots), an admitted 1-byte allocation
whose real call succeeds with a fresh non-null handle commits quota_used
to 1 but cannot be tracked, so the following free of the same handle finds
nothing and quota_used stays 1 instead of returning to 0. -/
theorem roundtrip_fulltable_cex :
    full_ctx.quota_used + 1 ≤ full_ctx.quota_limit ∧
    (2 : Nat) ≠ 0 ∧
    isTracked full_ctx.allocations 2 = false ∧
    (cudaFree true 0 (cudaMalloc true 0 2 false full_ctx 1).ctx 2).ctx.quota_used ≠
      full_ctx.quota_used := by
  refine ⟨by decide, by decide, full_table_fresh, ?_⟩
  rw [full_cex_freeEq, full_cex_free]
  show (cudaMalloc true 0 2 false full_ctx 1).ctx.quota_used ≠ full_ctx.quota_used
  rw [full_cex_used]
  decide

/-- C6 (amended): from every state with limit below 2^64 and a tracking
table that is not full, an admitted allocate of S bytes (used + S within
the limit, real allocator succeeding with a fresh non-null handle)
followed by a free of that same handle restores quota_used to its value
before the allocate, for every vendor code set. -/
theorem roundtrip_restores_used (c : VendorCodes) (ctx : quota_context_t)
    (size p realFreeCode : Nat)
    (hlim : ctx.quota_limit < SIZE_T_MOD)
    (hadm : ctx.quota_used + size ≤ ctx.quota_limit)
    (hp : p ≠ 0)
    (hfresh : isTracked ctx.allocations p = false)
    (hroom : hasRoom ctx.allocations = true) :
    (hcs_free c true realFreeCode
        (hcs_malloc c true c.success p false ctx size).ctx p).ctx.quota_used =
      ctx.quota_used := by
  have hlt : ctx.quota_used + size < SIZE_T_MOD := Nat.lt_of_le_of_lt hadm hlim
  have hmod : (ctx.quota_used + size) % SIZE_T_MOD = ctx.quota_used + size :=
    Nat.mod_eq_of_lt hlt
  have hnd : ¬ ctx.quota_limit < (ctx.quota_used + size) % SIZE_T_MOD := by
    rw [hmod]
    exact Nat.not_lt.mpr hadm
  rcases add_allocation_of_hasRoom p size ctx.allocations hroom with ⟨l2, hl2, _⟩
  have hpost : (hcs_malloc c true c.success p false ctx size).ctx =
      { ctx with
        quota_used := ctx.quota_used + size,
        total_allocs := ctx.total_allocs + 1,
        peak_usage :=
          if ctx.peak_usage < ctx.quota_used + size then ctx.quota_used + size
          else ctx.peak_usage,
        allocations := l2 } := by
    rw [hcs_malloc_commit c p ctx size hnd hp]
    simp only [hmod, hl2, Option.getD_some]
  have hfst : (remove_allocation l2 p).1 = size :=
    remove_fst_add_allocation p size ctx.allocations l2 hfresh hl2
  rw [hpost, hcs_free_used c realFreeCode _ p hp]
  simp only [hfst]
  by_cases hs : 0 < size
  · rw [if_pos hs, if_pos (Nat.le_add_left size ctx.quota_used)]
    omega
  · rw [if_neg hs]
    have h0 : size = 0 := Nat.eq_zero_of_not_pos hs
    simp [h0]

/-- Witness for C6 at a concrete fresh 30-byte round trip under a 100 byte
limit. -/
theorem roundtrip_restores_used_witness :
    ((init_ctx 100).quota_limit < SIZE_T_MOD ∧
      (init_ctx 100).quota_used + 30 ≤ (init_ctx 100).quota_limit ∧
      (7 : Nat) ≠ 0 ∧
      isTracked (init_ctx 100).allocations 7 = false ∧
      hasRoom (init_ctx 100).allocations = true) ∧
    (hcs_free cudaCodes true 0
        (hcs_malloc cudaCodes true cudaCodes.success 7 false
          (init_ctx 100) 30).ctx 7).ctx.quota_used =
      (init_ctx 100).quota_used :=
  ⟨⟨by decide, by decide, by decide, by decide, by decide⟩,
   roundtrip_restores_used cudaCodes (init_ctx 100) 30 7 0 (by decide) (by decide)
     (by decide) (by decide) (by decide)⟩

end HCS
